import Mathlib

set_option maxRecDepth 100000

/-
  Verification development for the TULFS networked-filesystem client
  (src/networked_file_system/src/client/client_main.rs).

  The Rust code is embedded shallowly: the shared `State` and the FUSE
  callbacks (open, read, write, flush, release) become pure Lean functions
  over an explicit world (shared state + local cache disk + remote tree),
  with I/O failure points exposed as boolean oracles.  Machine integers are
  Nat with explicit reductions mod 2^32 or 2^64 where the Rust code relies
  on fixed width.  Rust HashMaps become association lists with
  insert-replaces semantics.
-/

namespace TULFS

/-! ## Association-list maps (model of std::collections::HashMap) -/

def mget [DecidableEq κ] : List (κ × α) → κ → Option α
  | [], _ => none
  | (k0, v0) :: rest, k => if k0 = k then some v0 else mget rest k

def mput [DecidableEq κ] : List (κ × α) → κ → α → List (κ × α)
  | [], k, v => [(k, v)]
  | (k0, v0) :: rest, k, v =>
      if k0 = k then (k, v) :: rest else (k0, v0) :: mput rest k v

def mdel [DecidableEq κ] : List (κ × α) → κ → List (κ × α)
  | [], _ => []
  | (k0, v0) :: rest, k => if k0 = k then rest else (k0, v0) :: mdel rest k

/-- Model of in-place update through HashMap::get_mut. -/
def mupd [DecidableEq κ] : List (κ × α) → κ → (α → α) → List (κ × α)
  | [], _, _ => []
  | (k0, v0) :: rest, k, f =>
      if k0 = k then (k0, f v0) :: mupd rest k f else (k0, v0) :: mupd rest k f

/-- Keys are pairwise distinct (the HashMap representation invariant). -/
def NodupKeys [DecidableEq κ] (m : List (κ × α)) : Prop :=
  (m.map Prod.fst).Nodup

instance nodupKeysDec [DecidableEq κ] (m : List (κ × α)) :
    Decidable (NodupKeys m) :=
  List.nodupDecidable (m.map Prod.fst)

theorem mget_mput_self [DecidableEq κ] (m : List (κ × α)) (k : κ) (v : α) :
    mget (mput m k v) k = some v := by
  induction m with
  | nil => simp [mget, mput]
  | cons kv rest ih =>
    obtain ⟨k0, v0⟩ := kv
    by_cases h : k0 = k
    · simp [mput, h, mget]
    · simp [mput, h, mget, ih]

theorem mget_mput_ne [DecidableEq κ] (m : List (κ × α)) (k k2 : κ) (v : α)
    (h : k ≠ k2) : mget (mput m k v) k2 = mget m k2 := by
  induction m with
  | nil => simp [mget, mput, h]
  | cons kv rest ih =>
    obtain ⟨k0, v0⟩ := kv
    by_cases h0 : k0 = k
    · subst h0
      simp [mput, mget, h]
    · by_cases h2 : k0 = k2
      · subst h2
        simp [mput, h0, mget]
      · simp [mput, h0, mget, h2, ih]

theorem mget_eq_none_of_not_mem [DecidableEq κ] (m : List (κ × α)) (k : κ)
    (h : k ∉ m.map Prod.fst) : mget m k = none := by
  induction m with
  | nil => simp [mget]
  | cons kv rest ih =>
    obtain ⟨k0, v0⟩ := kv
    simp only [List.map_cons, List.mem_cons] at h
    push_neg at h
    have hne : ¬ k0 = k := fun he => h.1 he.symm
    simp [mget, hne, ih h.2]

theorem mget_mdel_self [DecidableEq κ] (m : List (κ × α)) (k : κ)
    (h : NodupKeys m) : mget (mdel m k) k = none := by
  induction m with
  | nil => simp [mdel, mget]
  | cons kv rest ih =>
    obtain ⟨k0, v0⟩ := kv
    simp only [NodupKeys, List.map_cons, List.nodup_cons] at h
    by_cases h0 : k0 = k
    · subst h0
      simpa [mdel] using mget_eq_none_of_not_mem rest k0 h.1
    · simp [mdel, h0, mget, ih h.2]

theorem mget_mupd_self [DecidableEq κ] (m : List (κ × α)) (k : κ) (f : α → α) :
    mget (mupd m k f) k = (mget m k).map f := by
  induction m with
  | nil => simp [mupd, mget]
  | cons kv rest ih =>
    obtain ⟨k0, v0⟩ := kv
    by_cases h : k0 = k
    · simp [mupd, mget, h]
    · simp [mupd, mget, h, ih]

/-! ## MD5 (the md5 crate's digest), over byte lists -/

namespace MD5

def M32 : Nat := 4294967296

def add32 (a b : Nat) : Nat := (a + b) % M32

/-- Left rotation of a 32-bit word (argument assumed < 2^32). -/
def rotl32 (x n : Nat) : Nat := ((x <<< n) % M32) ||| (x >>> (32 - n))

def KT : List Nat :=
  [0xd76aa478, 0xe8c7b756, 0x242070db, 0xc1bdceee,
   0xf57c0faf, 0x4787c62a, 0xa8304613, 0xfd469501,
   0x698098d8, 0x8b44f7af, 0xffff5bb1, 0x895cd7be,
   0x6b901122, 0xfd987193, 0xa679438e, 0x49b40821,
   0xf61e2562, 0xc040b340, 0x265e5a51, 0xe9b6c7aa,
   0xd62f105d, 0x02441453, 0xd8a1e681, 0xe7d3fbc8,
   0x21e1cde6, 0xc33707d6, 0xf4d50d87, 0x455a14ed,
   0xa9e3e905, 0xfcefa3f8, 0x676f02d9, 0x8d2a4c8a,
   0xfffa3942, 0x8771f681, 0x6d9d6122, 0xfde5380c,
   0xa4beea44, 0x4bdecfa9, 0xf6bb4b60, 0xbebfbc70,
   0x289b7ec6, 0xeaa127fa, 0xd4ef3085, 0x04881d05,
   0xd9d4d039, 0xe6db99e5, 0x1fa27cf8, 0xc4ac5665,
   0xf4292244, 0x432aff97, 0xab9423a7, 0xfc93a039,
   0x655b59c3, 0x8f0ccc92, 0xffeff47d, 0x85845dd1,
   0x6fa87e4f, 0xfe2ce6e0, 0xa3014314, 0x4e0811a1,
   0xf7537e82, 0xbd3af235, 0x2ad7d2bb, 0xeb86d391]

def ST : List Nat :=
  [7, 12, 17, 22, 7, 12, 17, 22, 7, 12, 17, 22, 7, 12, 17, 22,
   5, 9, 14, 20, 5, 9, 14, 20, 5, 9, 14, 20, 5, 9, 14, 20,
   4, 11, 16, 23, 4, 11, 16, 23, 4, 11, 16, 23, 4, 11, 16, 23,
   6, 10, 15, 21, 6, 10, 15, 21, 6, 10, 15, 21, 6, 10, 15, 21]

/-- Round function and message index for round i. -/
def mix (i b c d : Nat) : Nat × Nat :=
  if i < 16 then ((b &&& c) ||| (((M32 - 1) ^^^ b) &&& d), i)
  else if i < 32 then ((d &&& b) ||| (((M32 - 1) ^^^ d) &&& c), (5 * i + 1) % 16)
  else if i < 48 then (b ^^^ c ^^^ d, (3 * i + 5) % 16)
  else (c ^^^ (b ||| ((M32 - 1) ^^^ d)), (7 * i) % 16)

def roundStep (m : List Nat) (st : Nat × Nat × Nat × Nat) (i : Nat) :
    Nat × Nat × Nat × Nat :=
  match st with
  | (a, b, c, d) =>
    let fg := mix i b c d
    let f := (fg.1 + a + KT.getD i 0 + m.getD fg.2 0) % M32
    (d, add32 b (rotl32 f (ST.getD i 0)), b, c)

/-- Group bytes into 32-bit words, little-endian. -/
def wordsLE : List Nat → List Nat
  | b0 :: b1 :: b2 :: b3 :: rest =>
      (b0 + b1 * 256 + b2 * 65536 + b3 * 16777216) :: wordsLE rest
  | _ => []

def processBlock (h : Nat × Nat × Nat × Nat) (block : List Nat) :
    Nat × Nat × Nat × Nat :=
  let m := wordsLE block
  let r := (List.range 64).foldl (roundStep m) h
  match h, r with
  | (a0, b0, c0, d0), (a, b, c, d) =>
    (add32 a0 a, add32 b0 b, add32 c0 c, add32 d0 d)

/-- Split into 64-byte blocks; fuel-based structural recursion so that the
kernel can evaluate it (one unit of fuel per block is ample). -/
def chunksAux : Nat → List Nat → List (List Nat)
  | 0, _ => []
  | _, [] => []
  | fuel + 1, l => l.take 64 :: chunksAux fuel (l.drop 64)

def chunks64 (l : List Nat) : List (List Nat) := chunksAux l.length l

def le8 (n : Nat) : List Nat :=
  (List.range 8).map (fun i => (n >>> (8 * i)) % 256)

def le4 (n : Nat) : List Nat :=
  (List.range 4).map (fun i => (n >>> (8 * i)) % 256)

def padMsg (msg : List Nat) : List Nat :=
  let len := msg.length
  let r := (len + 1) % 64
  let k := (120 - r) % 64
  msg ++ [128] ++ List.replicate k 0 ++ le8 ((len * 8) % 18446744073709551616)

def md5bytes (msg : List Nat) : List Nat :=
  let h := (chunks64 (padMsg msg)).foldl processBlock
    (1732584193, 4023233417, 2562383102, 271733878)
  match h with
  | (a, b, c, d) => le4 a ++ le4 b ++ le4 c ++ le4 d

end MD5

/-- UTF-8 bytes of a string; the paths handled here are ASCII, where the
UTF-8 encoding is the codepoint sequence itself. -/
def strBytes (s : String) : List Nat := s.toList.map Char.toNat

/-- Big-endian value of a byte list (u64::from_be_bytes). -/
def beNat (bs : List Nat) : Nat := bs.foldl (fun acc b => acc * 256 + b) 0

/-- The inode derived from a path: first eight bytes of the md5 digest of
the path string, interpreted big-endian (client_main.rs lines 190-191). -/
def inodeOfPath (p : String) : Nat := beNat ((MD5.md5bytes (strBytes p)).take 8)

-- Validation of the MD5 embedding against the reference digests of the
-- empty string and of the string abc:
example : MD5.md5bytes [] =
    [0xd4, 0x1d, 0x8c, 0xd9, 0x8f, 0x00, 0xb2, 0x04,
     0xe9, 0x80, 0x09, 0x98, 0xec, 0xf8, 0x42, 0x7e] := by decide

example : MD5.md5bytes (strBytes "abc") =
    [0x90, 0x01, 0x50, 0x98, 0x3c, 0xd2, 0x4f, 0xb0,
     0xd6, 0x96, 0x3f, 0x7d, 0x28, 0xe1, 0x7f, 0x72] := by decide

/-! ## Constants (client_main.rs lines 25-28 and libc) -/

def ROOT_INODE : Nat := 1
def CACHE_PATH : String := "/var/tmp/tulfs_cache"
def O_RDONLY : Nat := 0
def O_WRONLY : Nat := 1
def O_RDWR : Nat := 2
def O_ACCMODE : Nat := 3

/-! ## Data model -/

inductive Errno where
  | ENOENT
  | ENOTDIR
  | EINVAL
  | EACCES
  | EIO
deriving DecidableEq, Repr

/-- A std::fs::File descriptor into the local cache.  The Rust descriptor
carries the path it was opened on and the access mode granted by
OpenOptions; the cursor position never influences any observable behavior
because read and write both seek to an explicit offset first, so it is not
tracked. -/
structure LocalFile where
  localPath : String
  readable : Bool
  writable : Bool
deriving DecidableEq, Repr

/-- struct OpenEntry (client_main.rs lines 30-35). -/
structure OpenEntry where
  file : LocalFile
  ino : Nat
  flags : Nat
  dirty : Bool
deriving DecidableEq, Repr

/-- struct State (client_main.rs lines 37-44): the shared maps and the
next file-handle counter.  HashMaps become association lists. -/
structure State where
  inode_to_path : List (Nat × String)
  path_to_inode : List (String × Nat)
  next_fh : Nat
  open_files : List (Nat × OpenEntry)
deriving DecidableEq, Repr

/-- The fields of TULFS fixed at mount time that the callbacks read. -/
structure Config where
  server_hash : String
  backing_root : String
deriving DecidableEq, Repr

/-- The world a callback acts on: the shared state plus the local cache
tree and the remote tree, each a map from absolute path to file bytes. -/
structure World where
  st : State
  disk : List (String × List Nat)
  remote : List (String × List Nat)
deriving DecidableEq, Repr

/-! ## Paths -/

/-- Rust Path::strip_prefix with prefix "/", with unwrap_or falling back
to the original: removes the leading root separator when present
(component-based, so any run of leading separators is the one RootDir
component), and leaves paths without one unchanged. -/
def stripRoot (p : String) : String :=
  String.mk (p.toList.dropWhile (fun c => c == '/'))

/-- Whether a path string is absolute (begins with the separator). -/
def startsWithSlash (p : String) : Bool :=
  match p.toList with
  | [] => false
  | c :: _ => c == '/'

/-- PathBuf::push of one path onto a base: an absolute path replaces the
base, the empty path is a no-op, anything else is appended after a
separator. -/
def pushPath (base : String) (p : String) : String :=
  if p = "" then base
  else if startsWithSlash p then p
  else base ++ "/" ++ p

/-- get_local_abs_path (client_main.rs lines 112-119): prefixes the cache
root and the server hash. -/
def get_local_abs_path (cfg : Config) (p : String) : String :=
  pushPath (CACHE_PATH ++ "/" ++ cfg.server_hash) p

/-- get_remote_abs_path (client_main.rs lines 122-138): prefixes the
backing root.  For a path with a leading separator the source first pushes
the stripped form and then re-pushes every component including RootDir,
which resets the buffer, so an absolute argument comes back unchanged. -/
def get_remote_abs_path (cfg : Config) (rel : String) : String :=
  pushPath cfg.backing_root rel

/-! ## Path/Inode Registry (client_main.rs lines 140-209) -/

/-- ensure_root (client_main.rs lines 140-146). -/
def ensure_root (st : State) : State :=
  if (mget st.inode_to_path ROOT_INODE).isSome then st
  else { st with
         inode_to_path := mput st.inode_to_path ROOT_INODE "/",
         path_to_inode := mput st.path_to_inode "/" ROOT_INODE }

/-- inode_for_path (client_main.rs lines 173-197).  Note the source strips
the leading separator before comparing with the canonical root string, and
computes the digest of the stripped path. -/
def inode_for_path (st : State) (rel_path0 : String) : Nat × State :=
  let rel_path := stripRoot rel_path0
  if rel_path = "/" then (ROOT_INODE, st)
  else
    match mget st.path_to_inode rel_path with
    | some ino => (ino, st)
    | none =>
      let ino := inodeOfPath rel_path
      (ino, { st with
              path_to_inode := mput st.path_to_inode rel_path ino,
              inode_to_path := mput st.inode_to_path ino rel_path })

/-- path_for_inode (client_main.rs lines 199-209). -/
def path_for_inode (st : State) (ino : Nat) : Option String :=
  if ino = ROOT_INODE then some "/"
  else mget st.inode_to_path ino

/-! ## Attribute projection (client_main.rs lines 220-270) -/

inductive FKind where
  | directory
  | regularFile
deriving DecidableEq, Repr

/-- The fuser::FileAttr fields the engine fills in. -/
structure FileAttr where
  ino : Nat
  size : Nat
  blocks : Nat
  atime : Nat
  mtime : Nat
  ctime : Nat
  crtime : Nat
  kind : FKind
  perm : Nat
  nlink : Nat
  uid : Nat
  gid : Nat
  rdev : Nat
  blksize : Nat
  flags : Nat
deriving DecidableEq, Repr

/-- An ssh2 FileStat: every field optional, plus the directory bit the
stat carries. -/
structure RemoteStat where
  size : Option Nat
  uid : Option Nat
  gid : Option Nat
  perm : Option Nat
  atime : Option Nat
  mtime : Option Nat
  isDir : Bool
deriving DecidableEq, Repr

/-- The ids of the calling process.  libc::getuid and libc::getgid return
the real ids; the effective ids are carried alongside so that the
distinction is expressible. -/
structure ProcIds where
  realUid : Nat
  realGid : Nat
  effUid : Nat
  effGid : Nat
deriving DecidableEq, Repr

/-- is_remote_dir (client_main.rs lines 104-107): stat mapped through
is_dir, false on any failure. -/
def is_remote_dir (statRes : Option RemoteStat) : Bool :=
  (statRes.map RemoteStat.isDir).getD false

/-- attr_from_remote (client_main.rs lines 220-270).  statRes is the
result of the sftp stat of the resolved remote path (none on error);
the directory probe is a second stat of the same path, which returns the
same result while the remote is unchanged. -/
def attr_from_remote (proc : ProcIds) (now : Nat) (statRes : Option RemoteStat)
    (ino : Nat) : Except Errno FileAttr :=
  match statRes with
  | none => .error .ENOENT
  | some stat =>
    let uid := stat.uid.getD proc.realUid
    let gid := stat.gid.getD proc.realGid
    let is_dir := is_remote_dir statRes
    let kind := if is_dir then FKind.directory else FKind.regularFile
    let perm := stat.perm.getD (if is_dir then 0o755 else 0o644)
    let size := if is_dir then 0 else stat.size.getD 0
    let atime := stat.atime.getD now
    let mtime := stat.mtime.getD now
    .ok { ino := ino, size := size, blocks := 0,
          atime := atime, mtime := mtime, ctime := mtime, crtime := mtime,
          kind := kind, perm := perm,
          nlink := if is_dir then 2 else 1,
          uid := uid, gid := gid, rdev := 0, blksize := 512, flags := 0 }

/-! ## VFS request handlers

Each handler is a pure function of the world; the outcome of each local or
transport I/O action that can fail independently of the modeled file trees
is an oracle boolean.  A handler that can reach an unwrap or expect on a
fallible value returns Option, with none standing for the panic. -/

inductive Reply where
  | opened (fh : Nat) (flags : Nat)
  | written (n : Nat)
  | dataR (bytes : List Nat)
  | okR
  | errR (e : Errno)
deriving DecidableEq, Repr

structure OpenOracle where
  /-- create_dir_all on the parent of the staged path; unwrapped, so
  failure is a panic (client_main.rs line 483). -/
  mkdirOk : Bool
  /-- OpenOptions create/write/truncate of the staged file in
  fetch_file_from_remote (lines 283-288). -/
  createLocalOk : Bool
  /-- io::copy from the remote handle into the staged file (line 297). -/
  copyOk : Bool
  /-- local_file.flush() (line 303). -/
  flushLocalOk : Bool
  /-- hit-path OpenOptions read/write open of the staged file (lines
  523-526). -/
  openLocalOk : Bool
deriving DecidableEq, Repr

structure UpOracle where
  /-- OpenOptions read open of the staged file before an upload. -/
  localOpenOk : Bool
  /-- local_file.seek(SeekFrom::Start(0)) in copy_from_local_to_remote. -/
  seekOk : Bool
  /-- sftp open_mode WRITE|CREATE|TRUNCATE of the remote path. -/
  remoteOpenOk : Bool
  /-- local_file.read_to_end. -/
  readLocalOk : Bool
  /-- remote_file.write_all. -/
  remoteWriteOk : Bool
deriving DecidableEq, Repr

structure WrOracle where
  seekOk : Bool
  writeOk : Bool
deriving DecidableEq, Repr

structure RdOracle where
  /-- entry.file.try_clone(); unwrapped, so failure is a panic (line
  630). -/
  cloneOk : Bool
  seekOk : Bool
  readOk : Bool
deriving DecidableEq, Repr

structure RelOracle where
  up : UpOracle
  /-- fs::remove_file of the staged file during eviction. -/
  removeOk : Bool
deriving DecidableEq, Repr

/-- Write data into a byte list at an offset, zero-filling any gap past
the end, as the local filesystem does. -/
def writeAt (content : List Nat) (off : Nat) (data : List Nat) : List Nat :=
  content.take off ++ List.replicate (off - content.length) 0 ++ data
    ++ content.drop (off + data.length)

/-- copy_from_local_to_remote (client_main.rs lines 311-351): rewinds the
local file, opens the remote for write+create+truncate, reads the whole
local content and writes it out; the new remote tree on success. -/
def copy_local_to_remote (remote : List (String × List Nat)) (remote_path : String)
    (content : List Nat) (o : UpOracle) : Except Errno (List (String × List Nat)) :=
  if o.seekOk = false then .error Errno.EIO
  else if o.remoteOpenOk = false then .error Errno.EIO
  else if o.readLocalOk = false then .error Errno.EIO
  else if o.remoteWriteOk = false then .error Errno.EIO
  else .ok (mput remote remote_path content)

/-- open (client_main.rs lines 458-548).  none is the panic from the
unwrapped create_dir_all on a cache miss. -/
def openFile (cfg : Config) (w : World) (ino : Nat) (flags : Nat)
    (o : OpenOracle) : Option (Reply × World) :=
  match path_for_inode w.st ino with
  | none => some (.errR .ENOENT, w)
  | some path0 =>
    let path := stripRoot path0
    let local_path := get_local_abs_path cfg path
    match mget w.disk local_path with
    | none =>
      -- miss: create parents (unwrap), fetch_file_from_remote (lines
      -- 272-309), then install the fetched write-only descriptor with the
      -- caller's original flags.
      if o.mkdirOk = false then none
      else
        let remote_path := get_remote_abs_path cfg path
        match mget w.remote remote_path with
        | none => some (.errR .ENOENT, w)
        | some content =>
          if o.createLocalOk = false then some (.errR Errno.EIO, w)
          else
            -- the staged file now exists, truncated
            let disk1 := mput w.disk local_path []
            if o.copyOk = false then some (.errR Errno.EIO, { w with disk := disk1 })
            else
              let disk2 := mput disk1 local_path content
              if o.flushLocalOk = false then
                some (.errR Errno.EIO, { w with disk := disk2 })
              else
                let f : LocalFile :=
                  { localPath := local_path, readable := false, writable := true }
                let fh := w.st.next_fh
                let entry : OpenEntry :=
                  { file := f, flags := flags, dirty := false, ino := ino }
                some (.opened fh flags,
                  { w with disk := disk2,
                           st := { w.st with
                                   open_files := mput w.st.open_files fh entry,
                                   next_fh := w.st.next_fh + 1 } })
    | some _ =>
      -- hit: the dirty check indexes open_files, a map keyed by file
      -- handle, with the inode number (line 510)
      let accmode := flags &&& O_ACCMODE
      let write_access0 : Bool :=
        (accmode == O_WRONLY) || (accmode == O_RDWR)
      let write_access :=
        match mget w.st.open_files ino with
        | some existing => if existing.dirty then false else write_access0
        | none => write_access0
      let local_flags :=
        if write_access then flags
        else ((flags &&& 4294967294) &&& 4294967293) ||| O_RDONLY
      if o.openLocalOk = false then some (.errR Errno.EIO, w)
      else
        let f : LocalFile :=
          { localPath := local_path, readable := true, writable := write_access }
        let fh := w.st.next_fh
        let entry : OpenEntry :=
          { file := f, flags := local_flags, ino := ino, dirty := false }
        some (.opened fh local_flags,
          { w with st := { w.st with
                           open_files := mput w.st.open_files fh entry,
                           next_fh := w.st.next_fh + 1 } })

/-- write (client_main.rs lines 550-609). -/
def writeF (w : World) (fh : Nat) (off : Nat) (data : List Nat)
    (o : WrOracle) : Reply × World :=
  match mget w.st.open_files fh with
  | none => (.errR .EINVAL, w)
  | some entry =>
    let accmode := entry.flags &&& O_ACCMODE
    if accmode ≠ O_WRONLY ∧ accmode ≠ O_RDWR then (.errR .EACCES, w)
    else if o.seekOk = false then (.errR Errno.EIO, w)
    else if entry.file.writable = false then (.errR Errno.EIO, w)
    else if o.writeOk = false then (.errR Errno.EIO, w)
    else
      let content := (mget w.disk entry.file.localPath).getD []
      (.written data.length,
       { w with
         disk := mput w.disk entry.file.localPath (writeAt content off data),
         st := { w.st with
                 open_files := mupd w.st.open_files fh
                   (fun e => { e with dirty := true }) } })

/-- read (client_main.rs lines 611-653).  none is the panic from the
unwrapped try_clone.  A read through a descriptor opened without read
access fails at the read call, which the source maps to EIO. -/
def readF (w : World) (fh : Nat) (off : Nat) (size : Nat)
    (o : RdOracle) : Option (Reply × World) :=
  match mget w.st.open_files fh with
  | none => some (.errR .EINVAL, w)
  | some entry =>
    if o.cloneOk = false then none
    else if o.seekOk = false then some (.errR Errno.EIO, w)
    else if entry.file.readable = false then some (.errR Errno.EIO, w)
    else if o.readOk = false then some (.errR Errno.EIO, w)
    else
      let content := (mget w.disk entry.file.localPath).getD []
      some (.dataR ((content.drop off).take size), w)

/-- flush (client_main.rs lines 655-720). -/
def flushF (cfg : Config) (w : World) (fh : Nat) (o : UpOracle) : Reply × World :=
  match mget w.st.open_files fh with
  | none => (.errR .EINVAL, w)
  | some entry =>
    if entry.dirty = false then (.okR, w)
    else
      match path_for_inode w.st entry.ino with
      | none => (.errR .ENOENT, w)
      | some p0 =>
        let path := stripRoot p0
        let remote_path := get_remote_abs_path cfg path
        let local_path := get_local_abs_path cfg path
        match mget w.disk local_path, o.localOpenOk with
        | some content, true =>
          match copy_local_to_remote w.remote remote_path content o with
          | .error e => (.errR e, w)
          | .ok remote2 =>
            (.okR, { w with
                     remote := remote2,
                     st := { w.st with
                             open_files := mupd w.st.open_files fh
                               (fun e => { e with dirty := false }) } })
        | _, _ => (.errR Errno.EIO, w)

/-- release (client_main.rs lines 722-804).  ino is the inode argument
the kernel passes alongside the handle; the source removes the
inode-to-path binding under that argument and the path-to-inode binding
under the path resolved from the entry's owning inode. -/
def releaseF (cfg : Config) (w : World) (ino : Nat) (fh : Nat)
    (o : RelOracle) : Reply × World :=
  match mget w.st.open_files fh with
  | none => (.errR .EINVAL, w)
  | some entry =>
    match path_for_inode w.st entry.ino with
    | none => (.errR .ENOENT, w)
    | some p0 =>
      let path := stripRoot p0
      let upload : Except Errno (List (String × List Nat)) :=
        if entry.dirty then
          let remote_path := get_remote_abs_path cfg path
          let local_path := get_local_abs_path cfg path
          match mget w.disk local_path, o.up.localOpenOk with
          | some content, true =>
            copy_local_to_remote w.remote remote_path content o.up
          | _, _ => .error Errno.EIO
        else .ok w.remote
      match upload with
      | .error e => (.errR e, w)
      | .ok remote2 =>
        let ofiles := mdel w.st.open_files fh
        if ofiles.any (fun kv => kv.2.ino == entry.ino) then
          (.okR, { w with remote := remote2,
                          st := { w.st with open_files := ofiles } })
        else
          let local_path := get_local_abs_path cfg path
          let disk2 :=
            match mget w.disk local_path with
            | some _ => if o.removeOk then mdel w.disk local_path else w.disk
            | none => w.disk
          (.okR, { w with
                   remote := remote2, disk := disk2,
                   st := { w.st with
                           open_files := ofiles,
                           inode_to_path := mdel w.st.inode_to_path ino,
                           path_to_inode := mdel w.st.path_to_inode path } })

/-! ## Traces of callbacks (for the handle-identifier invariant) -/

inductive Op where
  | doOpen (ino flags : Nat) (o : OpenOracle)
  | doWrite (fh off : Nat) (data : List Nat) (o : WrOracle)
  | doRead (fh off size : Nat) (o : RdOracle)
  | doFlush (fh : Nat) (o : UpOracle)
  | doRelease (ino fh : Nat) (o : RelOracle)

inductive StepRes where
  | crash
  | next (w : World) (issued : Option Nat)

def step (cfg : Config) (w : World) : Op → StepRes
  | .doOpen ino flags o =>
    match openFile cfg w ino flags o with
    | none => .crash
    | some (.opened fh _, w2) => .next w2 (some fh)
    | some (_, w2) => .next w2 none
  | .doWrite fh off data o => .next (writeF w fh off data o).2 none
  | .doRead fh off size o =>
    match readF w fh off size o with
    | none => .crash
    | some (_, w2) => .next w2 none
  | .doFlush fh o => .next (flushF cfg w fh o).2 none
  | .doRelease ino fh o => .next (releaseF cfg w ino fh o).2 none

/-- Run a sequence of callbacks, collecting the handle identifiers issued
by successful opens in order; a panic aborts the process and hence the
trace. -/
def run (cfg : Config) (w : World) : List Op → World × List Nat
  | [] => (w, [])
  | op :: ops =>
    match step cfg w op with
    | .crash => (w, [])
    | .next w2 issued =>
      let r := run cfg w2 ops
      (r.1, issued.toList ++ r.2)

/-- The state right after TULFS::new (line 58 sets next_fh to 1) and the
init callback's ensure_root. -/
def freshState : State :=
  ensure_root { inode_to_path := [], path_to_inode := [],
                next_fh := 1, open_files := [] }

def freshWorld (disk remote : List (String × List Nat)) : World :=
  { st := freshState, disk := disk, remote := remote }

/-! ## Startup (main, extract_hostname_and_path, TULFS::new) -/

inductive ExitOutcome where
  | exited (code : Nat)
  | panicAbort
deriving DecidableEq, Repr

structure StartupOracle where
  /-- TcpStream::connect, expect-unwrapped. -/
  connectOk : Bool
  /-- session.handshake, expect-unwrapped. -/
  handshakeOk : Bool
  /-- userauth_pubkey_file, expect-unwrapped. -/
  authOk : Bool
  /-- session.sftp, expect-unwrapped. -/
  sftpOk : Bool
  /-- sftp.stat of the backing root: none on error, otherwise whether it
  is a directory. -/
  backingStat : Option Bool
  /-- cache_dir.exists(). -/
  cacheDirExists : Bool
  /-- fs::create_dir_all of the cache directory, expect-unwrapped. -/
  createCacheOk : Bool
  /-- fuser::mount2. -/
  mountOk : Bool
deriving DecidableEq, Repr

/-- str::contains for a single character. -/
def strContains (s : String) (c : Char) : Bool := s.toList.any (fun x => x == c)

/-- The first part of str::splitn(2, c): everything before the first
occurrence of c. -/
def takeUntil (s : String) (c : Char) : String :=
  String.mk (s.toList.takeWhile (fun x => !(x == c)))

/-- main plus TULFS::new (client_main.rs lines 56-102 and 810-866), with
args the argument list after skipping the program name.  exited 0 is the
clean return from main; the expect calls panic rather than exit. -/
def mainStartup (args : List String) (o : StartupOracle) : ExitOutcome :=
  match args with
  | [_mountpoint, backing] =>
    -- extract_hostname_and_path requires a colon
    if strContains backing ':' = false then .exited 1
    else
      let hostname := takeUntil backing ':'
      -- TULFS::new: the hostname must split into user and host at an @
      if strContains hostname '@' = false then .exited 1
      else if o.connectOk = false then .panicAbort
      else if o.handshakeOk = false then .panicAbort
      else if o.authOk = false then .panicAbort
      else if o.sftpOk = false then .panicAbort
      else
        match o.backingStat with
        | none => .exited 1
        | some false => .exited 1
        | some true =>
          if o.cacheDirExists = false ∧ o.createCacheOk = false then .panicAbort
          else if o.mountOk = false then .exited 1
          else .exited 0
  | _ => .exited 1

/-! ## Concrete fixtures used by the claim theorems -/

def cfg0 : Config := { server_hash := "h", backing_root := "/srv/data" }

def oAllOpen : OpenOracle :=
  { mkdirOk := true, createLocalOk := true, copyOk := true,
    flushLocalOk := true, openLocalOk := true }

def oAllUp : UpOracle :=
  { localOpenOk := true, seekOk := true, remoteOpenOk := true,
    readLocalOk := true, remoteWriteOk := true }

/-- A world with one dirty read-write handle (fh 1) on inode 42, whose
staged file is present in the cache. -/
def wC1 : World :=
  { st := { inode_to_path := [(42, "f.txt")],
            path_to_inode := [("f.txt", 42)],
            next_fh := 2,
            open_files :=
              [(1, { file := { localPath := "/var/tmp/tulfs_cache/h/f.txt",
                               readable := true, writable := true },
                     ino := 42, flags := O_RDWR, dirty := true })] },
    disk := [("/var/tmp/tulfs_cache/h/f.txt", [88])],
    remote := [("/srv/data/f.txt", [])] }

def wC1b : World := ((openFile cfg0 wC1 42 O_RDWR oAllOpen).getD (.okR, wC1)).2

/-! ## Claim theorems -/

/-- Claim C1, code evaluation at the failing input.  In the world wC1,
handle 1 is a dirty open entry owning inode 42 and the staged file is
cached, so by the claim a second open of inode 42 for read-write must be
downgraded to read-only and a write through it must be refused.  The code
instead looks the dirty entry up under key 42 in the handle-keyed
open_files map, finds nothing (the dirty entry sits under handle 1),
grants write access, replies with the undowngraded read-write flags, and
lets the subsequent write succeed and dirty the second handle. -/
theorem c1_hit_dirty_check_misses_inode :
    (mget wC1.st.open_files 1).map OpenEntry.dirty = some true ∧
    (mget wC1.st.open_files 1).map OpenEntry.ino = some 42 ∧
    mget wC1.st.open_files 42 = none ∧
    openFile cfg0 wC1 42 O_RDWR oAllOpen = some (.opened 2 O_RDWR, wC1b) ∧
    (writeF wC1b 2 0 [89] { seekOk := true, writeOk := true }).1 = .written 1 := by
  decide

/-- Claim C4, code evaluation at the failing input.  The source strips the
leading separator from the argument before comparing it with the canonical
root string, so the root branch never fires: interning the root path "/"
(the very path the Registry stores for the root inode, and whose canonical
backing-relative form is the empty string) does not return the reserved
inode 1; it computes the digest inode of the empty string,
0xd41d8cd98f00b204, and installs a fresh mapping for "". -/
theorem c4_intern_root_digest :
    (inode_for_path freshState "/").1 = 0xd41d8cd98f00b204 ∧
    (inode_for_path freshState "/").1 ≠ ROOT_INODE ∧
    mget (inode_for_path freshState "/").2.path_to_inode ""
      = some 0xd41d8cd98f00b204 ∧
    (inode_for_path freshState "").1 = 0xd41d8cd98f00b204 ∧
    path_for_inode freshState ROOT_INODE = some "/" := by
  decide

/-- A process whose real and effective ids differ, and a remote stat with
owner and group missing. -/
def proc0 : ProcIds := { realUid := 1000, realGid := 1000, effUid := 0, effGid := 0 }

def stat0 : RemoteStat :=
  { size := some 6, uid := none, gid := none, perm := some 0o644,
    atime := some 10, mtime := some 20, isDir := false }

/-- The attribute record the code produces for proc0/stat0. -/
def attrC8 : FileAttr :=
  { ino := 7, size := 6, blocks := 0,
    atime := 10, mtime := 20, ctime := 20, crtime := 20,
    kind := .regularFile, perm := 0o644, nlink := 1,
    uid := 1000, gid := 1000, rdev := 0, blksize := 512, flags := 0 }

deriving instance DecidableEq for Except

/-- Claim C8, counterexample.  The claim says a missing owner defaults to
the current process's effective uid.  The source calls libc::getuid and
libc::getgid, which return the real ids: for a process with real uid 1000
and effective uid 0, a stat without an owner projects to uid 1000, not
0. -/
theorem c8_attr_counterexample :
    attr_from_remote proc0 99 (some stat0) 7 = .ok attrC8 ∧
    attrC8.uid = 1000 ∧ proc0.effUid = 0 ∧ proc0.effGid = 0 ∧ (1000 : Nat) ≠ 0 := by
  decide

/-- Claim C8 as amended: the attribute projection for a non-root inode
whose remote stat succeeds reports size zero for directories, defaults
missing owner/group to the current process's REAL uid/gid (getuid/getgid),
defaults missing permission bits to 0o755 for directories and 0o644 for
regular files, mirrors the modification time into the change and creation
times, reports link count 2 for directories and 1 for regular files and
block size 512; a failed remote stat yields not-found. -/
theorem c8_attr_projection_real_ids (proc : ProcIds) (now : Nat)
    (stat : RemoteStat) (ino : Nat) :
    attr_from_remote proc now none ino = .error .ENOENT ∧
    ∀ a, attr_from_remote proc now (some stat) ino = .ok a →
      (stat.isDir = true → a.size = 0) ∧
      (stat.uid = none → a.uid = proc.realUid) ∧
      (stat.gid = none → a.gid = proc.realGid) ∧
      (stat.perm = none → a.perm = if stat.isDir then 0o755 else 0o644) ∧
      a.ctime = a.mtime ∧ a.crtime = a.mtime ∧
      a.nlink = (if stat.isDir then 2 else 1) ∧
      a.blksize = 512 := by
  refine ⟨rfl, ?_⟩
  intro a h
  simp only [attr_from_remote, is_remote_dir, Option.map_some', Option.getD_some,
    Except.ok.injEq] at h
  subst h
  refine ⟨?_, ?_, ?_, ?_, rfl, rfl, rfl, rfl⟩
  · intro hd; simp [hd]
  · intro hu; simp [hu]
  · intro hg; simp [hg]
  · intro hp; simp [hp]

/-- Witness for c8_attr_projection_real_ids at proc0/stat0. -/
theorem c8_attr_projection_real_ids_witness :
    attr_from_remote proc0 99 none 7 = .error .ENOENT ∧
    ∃ a, attr_from_remote proc0 99 (some stat0) 7 = .ok a ∧
      a.uid = proc0.realUid ∧ a.ctime = a.mtime := by
  have h := c8_attr_projection_real_ids proc0 99 stat0 7
  refine ⟨h.1, attrC8, by decide, ?_, ?_⟩
  · exact (h.2 _ (by decide)).2.1 (by decide)
  · exact (h.2 _ (by decide)).2.2.2.2.1

/-- A startup oracle in which only the TCP connection fails. -/
def oConnFail : StartupOracle :=
  { connectOk := false, handshakeOk := true, authOk := true, sftpOk := true,
    backingStat := some true, cacheDirExists := true, createCacheOk := true,
    mountOk := true }

/-- An open oracle in which only the parent-directory creation fails. -/
def oMkdirFail : OpenOracle :=
  { mkdirOk := false, createLocalOk := true, copyOk := true,
    flushLocalOk := true, openLocalOk := true }

/-- A world in which inode 42 resolves but its staged file is absent. -/
def wMiss : World :=
  { st := { inode_to_path := [(42, "f.txt")],
            path_to_inode := [("f.txt", 42)],
            next_fh := 1, open_files := [] },
    disk := [],
    remote := [("/srv/data/f.txt", [104, 105])] }

/-- Claim C9, counterexample.  With well-formed arguments and an
unreachable host, the process terminates through the expect on
TcpStream::connect - a panic - rather than exiting with code 1 as the
claim states. -/
theorem c9_startup_counterexample :
    mainStartup ["mnt", "alice@host:/srv/data"] oConnFail = .panicAbort ∧
    ExitOutcome.panicAbort ≠ .exited 1 := by
  decide

/-- Claim C9 as amended: an argument-count mismatch, a connection string
missing the colon or the at sign, a missing or non-directory backing path,
and a mount failure exit with code 1; an unreachable host, a handshake
failure, an authentication failure, an SFTP-subsystem failure, and a
cache-directory creation failure terminate by panic, not by exit code 1;
and the request-handling engine itself can panic on a local I/O failure
(the unwrapped create_dir_all in the open miss path). -/
theorem c9_startup_outcomes (args : List String) (o : StartupOracle) :
    (args.length ≠ 2 → mainStartup args o = .exited 1) ∧
    (∀ mp backing, args = [mp, backing] →
      (strContains backing ':' = false → mainStartup args o = .exited 1) ∧
      (strContains backing ':' = true →
        strContains (takeUntil backing ':') '@' = false →
        mainStartup args o = .exited 1) ∧
      (strContains backing ':' = true →
       strContains (takeUntil backing ':') '@' = true →
        (o.connectOk = false → mainStartup args o = .panicAbort) ∧
        (o.connectOk = true → o.handshakeOk = false →
          mainStartup args o = .panicAbort) ∧
        (o.connectOk = true → o.handshakeOk = true → o.authOk = false →
          mainStartup args o = .panicAbort) ∧
        (o.connectOk = true → o.handshakeOk = true → o.authOk = true →
         o.sftpOk = false → mainStartup args o = .panicAbort) ∧
        (o.connectOk = true → o.handshakeOk = true → o.authOk = true →
         o.sftpOk = true →
          ((o.backingStat = none ∨ o.backingStat = some false) →
            mainStartup args o = .exited 1) ∧
          (o.backingStat = some true →
            (o.cacheDirExists = false → o.createCacheOk = false →
              mainStartup args o = .panicAbort) ∧
            ((o.cacheDirExists = true ∨ o.createCacheOk = true) →
             o.mountOk = false → mainStartup args o = .exited 1))))) ∧
    openFile cfg0 wMiss 42 0 oMkdirFail = none := by
  refine ⟨?_, ?_, by decide⟩
  · intro h
    match args with
    | [] => rfl
    | [_] => rfl
    | [_, _] => simp at h
    | _ :: _ :: _ :: _ => rfl
  · rintro mp backing rfl
    refine ⟨?_, ?_, ?_⟩
    · intro hc; simp [mainStartup, hc]
    · intro hc ha; simp [mainStartup, hc, ha]
    · intro hc ha
      refine ⟨?_, ?_, ?_, ?_, ?_⟩
      · intro h1; simp [mainStartup, hc, ha, h1]
      · intro h1 h2; simp [mainStartup, hc, ha, h1, h2]
      · intro h1 h2 h3; simp [mainStartup, hc, ha, h1, h2, h3]
      · intro h1 h2 h3 h4; simp [mainStartup, hc, ha, h1, h2, h3, h4]
      · intro h1 h2 h3 h4
        refine ⟨?_, ?_⟩
        · rintro (hb | hb) <;> simp [mainStartup, hc, ha, h1, h2, h3, h4, hb]
        · intro hb
          refine ⟨?_, ?_⟩
          · intro hce hcc
            simp [mainStartup, hc, ha, h1, h2, h3, h4, hb, hce, hcc]
          · rintro (hce | hcc) hm
            · simp [mainStartup, hc, ha, h1, h2, h3, h4, hb, hce, hm]
            · simp [mainStartup, hc, ha, h1, h2, h3, h4, hb, hcc, hm]

/-- A startup oracle in which only the cache-directory creation fails. -/
def oCacheFail : StartupOracle :=
  { oConnFail with connectOk := true, cacheDirExists := false,
                   createCacheOk := false }

/-- Witness for c9_startup_outcomes: the empty argument list exits 1, and
a cache-directory creation failure with everything earlier healthy
panics. -/
theorem c9_startup_outcomes_witness :
    mainStartup [] oConnFail = .exited 1 ∧
    mainStartup ["mnt", "alice@host:/srv/data"] oCacheFail = .panicAbort := by
  constructor
  · exact (c9_startup_outcomes [] oConnFail).1 (by decide)
  · have h := ((c9_startup_outcomes ["mnt", "alice@host:/srv/data"]
      oCacheFail).2.1 "mnt" "alice@host:/srv/data" rfl).2.2 (by decide) (by decide)
    exact ((h.2.2.2.2 rfl rfl rfl rfl).2 rfl).1 rfl rfl

/-- The open-file entry installed by a cache-miss open: the descriptor is
the one fetch_file_from_remote opened with create+write+truncate (and
without read), while the recorded flags are the caller's. -/
def missEntry (cfg : Config) (ino flags : Nat) (p : String) : OpenEntry :=
  { file := { localPath := get_local_abs_path cfg (stripRoot p),
              readable := false, writable := true },
    flags := flags, dirty := false, ino := ino }

/-- The world after a fully successful cache-miss open. -/
def missWorld (cfg : Config) (w : World) (ino flags : Nat) (p : String)
    (content : List Nat) : World :=
  let lp := get_local_abs_path cfg (stripRoot p)
  { w with
    disk := mput (mput w.disk lp []) lp content,
    st := { w.st with
            open_files := mput w.st.open_files w.st.next_fh
              (missEntry cfg ino flags p),
            next_fh := w.st.next_fh + 1 } }

def roAll : RdOracle := { cloneOk := true, seekOk := true, readOk := true }

/-- Claim C10: on a cache miss, the descriptor stored in the new entry is
the write-only create+truncate descriptor used for the fetch, not one
opened with the caller's requested access mode, so a subsequent read
through the new handle fails with EIO even when the open was requested
read-only (flags is arbitrary here, so in particular read-only or
read-write). -/
theorem c10_miss_entry_unreadable (cfg : Config) (w : World)
    (ino flags size : Nat) (o : OpenOracle) (ro : RdOracle)
    (p : String) (content : List Nat)
    (hres : path_for_inode w.st ino = some p)
    (hmiss : mget w.disk (get_local_abs_path cfg (stripRoot p)) = none)
    (hrem : mget w.remote (get_remote_abs_path cfg (stripRoot p)) = some content)
    (hmk : o.mkdirOk = true) (hcr : o.createLocalOk = true)
    (hcp : o.copyOk = true) (hfl : o.flushLocalOk = true)
    (hclone : ro.cloneOk = true) (hseek : ro.seekOk = true) :
    openFile cfg w ino flags o =
      some (.opened w.st.next_fh flags, missWorld cfg w ino flags p content) ∧
    mget (missWorld cfg w ino flags p content).st.open_files w.st.next_fh =
      some (missEntry cfg ino flags p) ∧
    (missEntry cfg ino flags p).file.readable = false ∧
    (missEntry cfg ino flags p).file.writable = true ∧
    (missEntry cfg ino flags p).flags = flags ∧
    readF (missWorld cfg w ino flags p content) w.st.next_fh 0 size ro =
      some (.errR Errno.EIO, missWorld cfg w ino flags p content) := by
  refine ⟨?_, ?_, rfl, rfl, rfl, ?_⟩
  · simp [openFile, hres, hmiss, hrem, hmk, hcr, hcp, hfl, missWorld, missEntry]
  · exact mget_mput_self _ _ _
  · simp [readF, missWorld, mget_mput_self, hclone, hseek, missEntry]

/-- Witness for c10_miss_entry_unreadable: a concrete read-only open that
misses the cache, fetches, and whose first read fails with EIO. -/
theorem c10_miss_entry_unreadable_witness :
    openFile cfg0 wMiss 42 O_RDONLY oAllOpen =
      some (.opened 1 O_RDONLY, missWorld cfg0 wMiss 42 O_RDONLY "f.txt" [104, 105]) ∧
    readF (missWorld cfg0 wMiss 42 O_RDONLY "f.txt" [104, 105]) 1 0 5 roAll =
      some (.errR Errno.EIO, missWorld cfg0 wMiss 42 O_RDONLY "f.txt" [104, 105]) := by
  have h := c10_miss_entry_unreadable cfg0 wMiss 42 O_RDONLY 5 oAllOpen roAll
    "f.txt" [104, 105] (by decide) (by decide) (by decide) rfl rfl rfl rfl rfl rfl
  exact ⟨h.1, h.2.2.2.2.2⟩

/-- Claim C5: for a non-root backing-relative path p in canonical form (no
leading separator), interning p and resolving the returned inode yields p
again, and the returned inode is the first eight bytes of the 128-bit
digest of the path string, big-endian.  The hypotheses express the
registry invariant for p (an existing binding for p was installed by a
previous intern, so it carries the digest inode and the inverse binding)
and the documented no-collision assumption (the digest does not collide
with the reserved root inode). -/
theorem c5_intern_resolve_roundtrip (st : State) (p : String)
    (hcanon : stripRoot p = p) (hne : p ≠ "")
    (hroot : inodeOfPath p ≠ ROOT_INODE)
    (hwf : ∀ i, mget st.path_to_inode p = some i →
      i = inodeOfPath p ∧ mget st.inode_to_path i = some p) :
    (inode_for_path st p).1 = inodeOfPath p ∧
    path_for_inode (inode_for_path st p).2 (inode_for_path st p).1 = some p := by
  have hslash : p ≠ "/" := by
    intro h
    subst h
    exact absurd hcanon (by decide)
  simp only [inode_for_path, hcanon, if_neg hslash]
  cases hm : mget st.path_to_inode p with
  | some i =>
    obtain ⟨hi, hres⟩ := hwf i hm
    subst hi
    exact ⟨rfl, by simp only [path_for_inode, if_neg hroot]; exact hres⟩
  | none =>
    refine ⟨rfl, ?_⟩
    simp only [path_for_inode, if_neg hroot]
    exact mget_mput_self _ _ _

/-- Witness for c5_intern_resolve_roundtrip: interning hello.txt in the
fresh post-init state and resolving the result round-trips. -/
theorem c5_intern_resolve_roundtrip_witness :
    (inode_for_path freshState "hello.txt").1 = inodeOfPath "hello.txt" ∧
    path_for_inode (inode_for_path freshState "hello.txt").2
      (inode_for_path freshState "hello.txt").1 = some "hello.txt" := by
  have hnone : mget freshState.path_to_inode "hello.txt" = none := by decide
  exact c5_intern_resolve_roundtrip freshState "hello.txt" (by decide) (by decide)
    (by decide) (fun i h => absurd h (by simp [hnone]))

/-- Claim C7: write rejects with EACCES and changes nothing when the
entry's effective access mode is neither write-only nor read-write;
rejects with EINVAL on an unknown handle; and on success sets the dirty
bit and returns the number of bytes written. -/
theorem c7_write_contract (w : World) (fh off : Nat) (data : List Nat)
    (o : WrOracle) :
    (mget w.st.open_files fh = none →
      writeF w fh off data o = (.errR .EINVAL, w)) ∧
    (∀ e, mget w.st.open_files fh = some e →
      (e.flags &&& O_ACCMODE ≠ O_WRONLY ∧ e.flags &&& O_ACCMODE ≠ O_RDWR →
        writeF w fh off data o = (.errR .EACCES, w)) ∧
      ((e.flags &&& O_ACCMODE = O_WRONLY ∨ e.flags &&& O_ACCMODE = O_RDWR) →
       o.seekOk = true → e.file.writable = true → o.writeOk = true →
        (writeF w fh off data o).1 = .written data.length ∧
        (mget (writeF w fh off data o).2.st.open_files fh).map OpenEntry.dirty
          = some true)) := by
  constructor
  · intro h
    simp [writeF, h]
  · intro e he
    constructor
    · intro hacc
      simp only [writeF, he]
      rw [if_pos hacc]
    · intro hacc hseek hwr hok
      have hcond : ¬(e.flags &&& O_ACCMODE ≠ O_WRONLY ∧
          e.flags &&& O_ACCMODE ≠ O_RDWR) := by
        rcases hacc with h | h <;> simp [h]
      simp [writeF, he, hcond, hseek, hwr, hok, mget_mupd_self]

/-- A read-only entry under handle 1 (requested and granted read-only). -/
def eC7a : OpenEntry :=
  { file := { localPath := "/var/tmp/tulfs_cache/h/f.txt",
              readable := true, writable := false },
    ino := 42, flags := O_RDONLY, dirty := false }

/-- A read-write entry under handle 1. -/
def eC7b : OpenEntry :=
  { file := { localPath := "/var/tmp/tulfs_cache/h/f.txt",
              readable := true, writable := true },
    ino := 42, flags := O_RDWR, dirty := false }

def wC7a : World :=
  { st := { inode_to_path := [(42, "f.txt")], path_to_inode := [("f.txt", 42)],
            next_fh := 2, open_files := [(1, eC7a)] },
    disk := [("/var/tmp/tulfs_cache/h/f.txt", [104])], remote := [] }

def wC7b : World :=
  { st := { inode_to_path := [(42, "f.txt")], path_to_inode := [("f.txt", 42)],
            next_fh := 2, open_files := [(1, eC7b)] },
    disk := [("/var/tmp/tulfs_cache/h/f.txt", [104])], remote := [] }

def oWr : WrOracle := { seekOk := true, writeOk := true }

/-- Witness for c7_write_contract: a write through a read-only handle is
refused and leaves the world alone, a write through a read-write handle
writes one byte and dirties the entry, and an unknown handle is
EINVAL. -/
theorem c7_write_contract_witness :
    writeF wC7a 1 0 [89] oWr = (.errR .EACCES, wC7a) ∧
    (writeF wC7b 1 0 [89] oWr).1 = .written 1 ∧
    (mget (writeF wC7b 1 0 [89] oWr).2.st.open_files 1).map OpenEntry.dirty
      = some true ∧
    writeF wC7a 99 0 [89] oWr = (.errR .EINVAL, wC7a) := by
  refine ⟨?_, ?_, ?_, ?_⟩
  · exact ((c7_write_contract wC7a 1 0 [89] oWr).2 eC7a rfl).1 (by decide)
  · exact (((c7_write_contract wC7b 1 0 [89] oWr).2 eC7b rfl).2
      (by decide) rfl rfl rfl).1
  · exact (((c7_write_contract wC7b 1 0 [89] oWr).2 eC7b rfl).2
      (by decide) rfl rfl rfl).2
  · exact (c7_write_contract wC7a 99 0 [89] oWr).1 (by decide)

/-- Claim C2: flush of a clean entry succeeds without touching anything;
flush of a dirty entry clears the dirty bit exactly when the upload
succeeds, and any failure (opening the staged file, transport error)
returns an error and leaves the whole world - dirty bit included -
unchanged; an unknown handle is EINVAL and an inode that no longer
resolves is ENOENT. -/
theorem c2_flush_contract (cfg : Config) (w : World) (fh : Nat) (o : UpOracle) :
    (mget w.st.open_files fh = none →
      flushF cfg w fh o = (.errR .EINVAL, w)) ∧
    (∀ e, mget w.st.open_files fh = some e →
      (e.dirty = false → flushF cfg w fh o = (.okR, w)) ∧
      (e.dirty = true →
        (path_for_inode w.st e.ino = none →
          flushF cfg w fh o = (.errR .ENOENT, w)) ∧
        (∀ er, (flushF cfg w fh o).1 = .errR er → (flushF cfg w fh o).2 = w) ∧
        ((flushF cfg w fh o).1 = .okR →
          (mget (flushF cfg w fh o).2.st.open_files fh).map OpenEntry.dirty
            = some false))) := by
  constructor
  · intro h
    simp [flushF, h]
  · intro e he
    refine ⟨?_, ?_⟩
    · intro hd
      simp [flushF, he, hd]
    · intro hd
      refine ⟨?_, ?_, ?_⟩
      · intro hp
        simp [flushF, he, hd, hp]
      · intro er
        cases hp : path_for_inode w.st e.ino with
        | none => simp [flushF, he, hd, hp]
        | some p =>
          cases hdisk : mget w.disk (get_local_abs_path cfg (stripRoot p)) with
          | none => simp [flushF, he, hd, hp, hdisk]
          | some content =>
            cases hlo : o.localOpenOk with
            | false => simp [flushF, he, hd, hp, hdisk, hlo]
            | true =>
              cases hcp : copy_local_to_remote w.remote
                  (get_remote_abs_path cfg (stripRoot p)) content o with
              | error e2 => simp [flushF, he, hd, hp, hdisk, hlo, hcp]
              | ok r2 => simp [flushF, he, hd, hp, hdisk, hlo, hcp]
      · intro hres
        cases hp : path_for_inode w.st e.ino with
        | none => simp [flushF, he, hd, hp] at hres
        | some p =>
          cases hdisk : mget w.disk (get_local_abs_path cfg (stripRoot p)) with
          | none => simp [flushF, he, hd, hp, hdisk] at hres
          | some content =>
            cases hlo : o.localOpenOk with
            | false => simp [flushF, he, hd, hp, hdisk, hlo] at hres
            | true =>
              cases hcp : copy_local_to_remote w.remote
                  (get_remote_abs_path cfg (stripRoot p)) content o with
              | error e2 => simp [flushF, he, hd, hp, hdisk, hlo, hcp] at hres
              | ok r2 =>
                simp [flushF, he, hd, hp, hdisk, hlo, hcp, mget_mupd_self]

/-- A dirty read-write entry under handle 1 owning inode 42. -/
def eC2 : OpenEntry :=
  { file := { localPath := "/var/tmp/tulfs_cache/h/f.txt",
              readable := true, writable := true },
    ino := 42, flags := O_RDWR, dirty := true }

def wC2 : World :=
  { st := { inode_to_path := [(42, "f.txt")], path_to_inode := [("f.txt", 42)],
            next_fh := 2, open_files := [(1, eC2)] },
    disk := [("/var/tmp/tulfs_cache/h/f.txt", [88])], remote := [] }

/-- The same world with the entry clean. -/
def eC2c : OpenEntry := { eC2 with dirty := false }

def wC2c : World :=
  { wC2 with st := { wC2.st with open_files := [(1, eC2c)] } }

/-- An upload oracle in which only the remote open fails (transport
failure). -/
def oUpFail : UpOracle :=
  { localOpenOk := true, seekOk := true, remoteOpenOk := false,
    readLocalOk := true, remoteWriteOk := true }

/-- Witness for c2_flush_contract: a failed upload leaves the dirty world
unchanged, a successful upload clears the dirty bit, a clean flush is a
no-op success, and an unknown handle is EINVAL. -/
theorem c2_flush_contract_witness :
    (flushF cfg0 wC2 1 oUpFail).2 = wC2 ∧
    (mget (flushF cfg0 wC2 1 oAllUp).2.st.open_files 1).map OpenEntry.dirty
      = some false ∧
    flushF cfg0 wC2c 1 oAllUp = (.okR, wC2c) ∧
    flushF cfg0 wC2 99 oAllUp = (.errR .EINVAL, wC2) := by
  refine ⟨?_, ?_, ?_, ?_⟩
  · exact (((c2_flush_contract cfg0 wC2 1 oUpFail).2 eC2 rfl).2 rfl).2.1
      Errno.EIO (by decide)
  · exact (((c2_flush_contract cfg0 wC2 1 oAllUp).2 eC2 rfl).2 rfl).2.2 (by decide)
  · exact ((c2_flush_contract cfg0 wC2c 1 oAllUp).2 eC2c rfl).1 rfl
  · exact (c2_flush_contract cfg0 wC2 99 oAllUp).1 (by decide)

/-- Claim C3: a successful release of the last handle for an inode (the
kernel passes the entry's owning inode as the ino argument) removes both
Registry directions for that inode and deletes the staged file when the
deletion succeeds; a failed deletion still leaves release successful; and
when another handle for the same inode remains, the Registry maps and the
cache tree are untouched.  The hypotheses are the representation and
reachability invariants: key-distinct maps, a canonical stored path, and a
non-root owning inode. -/
theorem c3_release_last_handle (cfg : Config) (w : World) (ino fh : Nat)
    (o : RelOracle) (e : OpenEntry) (p : String)
    (he : mget w.st.open_files fh = some e)
    (hino : e.ino = ino)
    (hroot : ino ≠ ROOT_INODE)
    (hp : mget w.st.inode_to_path ino = some p)
    (hcanon : stripRoot p = p)
    (hndP : NodupKeys w.st.path_to_inode)
    (hndI : NodupKeys w.st.inode_to_path)
    (hndD : NodupKeys w.disk)
    (hok : (releaseF cfg w ino fh o).1 = .okR) :
    ((mdel w.st.open_files fh).any (fun kv => kv.2.ino == ino) = false →
      mget (releaseF cfg w ino fh o).2.st.inode_to_path ino = none ∧
      mget (releaseF cfg w ino fh o).2.st.path_to_inode p = none ∧
      (o.removeOk = true →
        mget (releaseF cfg w ino fh o).2.disk (get_local_abs_path cfg p) = none) ∧
      (∀ b, (releaseF cfg w ino fh { o with removeOk := b }).1 = .okR)) ∧
    ((mdel w.st.open_files fh).any (fun kv => kv.2.ino == ino) = true →
      (releaseF cfg w ino fh o).2.st.inode_to_path = w.st.inode_to_path ∧
      (releaseF cfg w ino fh o).2.st.path_to_inode = w.st.path_to_inode ∧
      (releaseF cfg w ino fh o).2.disk = w.disk) := by
  subst hino
  have hpf : path_for_inode w.st e.ino = some p := by
    simp [path_for_inode, hroot, hp]
  have hdel1 : mget (mdel w.st.inode_to_path e.ino) e.ino = none :=
    mget_mdel_self _ _ hndI
  have hdel2 : mget (mdel w.st.path_to_inode p) p = none :=
    mget_mdel_self _ _ hndP
  have hdelD : mget (mdel w.disk (get_local_abs_path cfg p))
      (get_local_abs_path cfg p) = none :=
    mget_mdel_self _ _ hndD
  cases hd : e.dirty with
  | false =>
    cases hany : (mdel w.st.open_files fh).any (fun kv => kv.2.ino == e.ino) with
    | true =>
      refine ⟨fun hc => absurd hc (by decide), fun _ => ?_⟩
      simp [releaseF, he, hpf, hd, hany]
    | false =>
      refine ⟨fun _ => ?_, fun hc => absurd hc (by decide)⟩
      cases hdk : mget w.disk (get_local_abs_path cfg p) with
      | none =>
        refine ⟨?_, ?_, fun _ => ?_, fun b => ?_⟩ <;>
          simp [releaseF, he, hpf, hd, hany, hcanon, hdk, hdel1, hdel2]
      | some c0 =>
        cases hrm : o.removeOk with
        | false =>
          refine ⟨?_, ?_, fun hcon => ?_, fun b => ?_⟩
          · simp [releaseF, he, hpf, hd, hany, hcanon, hdk, hrm, hdel1]
          · simp [releaseF, he, hpf, hd, hany, hcanon, hdk, hrm, hdel2]
          · simp at hcon
          · cases b <;> simp [releaseF, he, hpf, hd, hany, hcanon, hdk]
        | true =>
          refine ⟨?_, ?_, fun _ => ?_, fun b => ?_⟩
          · simp [releaseF, he, hpf, hd, hany, hcanon, hdk, hrm, hdel1]
          · simp [releaseF, he, hpf, hd, hany, hcanon, hdk, hrm, hdel2]
          · simp [releaseF, he, hpf, hd, hany, hcanon, hdk, hrm, hdelD]
          · cases b <;> simp [releaseF, he, hpf, hd, hany, hcanon, hdk]
  | true =>
    cases hdk0 : mget w.disk (get_local_abs_path cfg p) with
    | none =>
      exact absurd hok (by simp [releaseF, he, hpf, hd, hcanon, hdk0])
    | some content =>
      cases hlo : o.up.localOpenOk with
      | false =>
        exact absurd hok (by simp [releaseF, he, hpf, hd, hcanon, hdk0, hlo])
      | true =>
        cases hcp : copy_local_to_remote w.remote
            (get_remote_abs_path cfg p) content o.up with
        | error e2 =>
          exact absurd hok
            (by simp [releaseF, he, hpf, hd, hcanon, hdk0, hlo, hcp])
        | ok remote2 =>
          cases hany : (mdel w.st.open_files fh).any
              (fun kv => kv.2.ino == e.ino) with
          | true =>
            refine ⟨fun hc => absurd hc (by decide), fun _ => ?_⟩
            simp [releaseF, he, hpf, hd, hany, hcanon, hdk0, hlo, hcp]
          | false =>
            refine ⟨fun _ => ?_, fun hc => absurd hc (by decide)⟩
            cases hrm : o.removeOk with
            | false =>
              refine ⟨?_, ?_, fun hcon => ?_, fun b => ?_⟩
              · simp [releaseF, he, hpf, hd, hany, hcanon, hdk0, hlo, hcp,
                  hrm, hdel1]
              · simp [releaseF, he, hpf, hd, hany, hcanon, hdk0, hlo, hcp,
                  hrm, hdel2]
              · simp at hcon
              · cases b <;>
                  simp [releaseF, he, hpf, hd, hany, hcanon, hdk0, hlo, hcp]
            | true =>
              refine ⟨?_, ?_, fun _ => ?_, fun b => ?_⟩
              · simp [releaseF, he, hpf, hd, hany, hcanon, hdk0, hlo, hcp,
                  hrm, hdel1]
              · simp [releaseF, he, hpf, hd, hany, hcanon, hdk0, hlo, hcp,
                  hrm, hdel2]
              · simp [releaseF, he, hpf, hd, hany, hcanon, hdk0, hlo, hcp,
                  hrm, hdelD]
              · cases b <;>
                  simp [releaseF, he, hpf, hd, hany, hcanon, hdk0, hlo, hcp]

/-- A clean entry under handle 1 owning inode 42, the only handle. -/
def eC3 : OpenEntry :=
  { file := { localPath := "/var/tmp/tulfs_cache/h/f.txt",
              readable := true, writable := true },
    ino := 42, flags := O_RDWR, dirty := false }

def wC3 : World :=
  { st := { inode_to_path := [(42, "f.txt")], path_to_inode := [("f.txt", 42)],
            next_fh := 2, open_files := [(1, eC3)] },
    disk := [("/var/tmp/tulfs_cache/h/f.txt", [88])], remote := [] }

def oRel : RelOracle := { up := oAllUp, removeOk := true }

/-- Witness for c3_release_last_handle: releasing the only handle for
inode 42 removes both Registry directions and the staged file, and the
call also succeeds when the staged-file deletion fails. -/
theorem c3_release_last_handle_witness :
    mget (releaseF cfg0 wC3 42 1 oRel).2.st.inode_to_path 42 = none ∧
    mget (releaseF cfg0 wC3 42 1 oRel).2.st.path_to_inode "f.txt" = none ∧
    mget (releaseF cfg0 wC3 42 1 oRel).2.disk
      (get_local_abs_path cfg0 "f.txt") = none ∧
    (releaseF cfg0 wC3 42 1 { oRel with removeOk := false }).1 = .okR := by
  have h := (c3_release_last_handle cfg0 wC3 42 1 oRel eC3 "f.txt" rfl rfl
    (by decide) rfl (by decide) (by decide) (by decide) (by decide)
    (by decide)).1 (by decide)
  exact ⟨h.1, h.2.1, h.2.2.1 rfl, h.2.2.2 false⟩

/-! ## Handle-identifier bookkeeping (for claim C6) -/

theorem writeF_next_fh (w : World) (fh off : Nat) (data : List Nat)
    (o : WrOracle) : (writeF w fh off data o).2.st.next_fh = w.st.next_fh := by
  unfold writeF
  dsimp only
  repeat' split
  all_goals rfl

theorem flushF_next_fh (cfg : Config) (w : World) (fh : Nat) (o : UpOracle) :
    (flushF cfg w fh o).2.st.next_fh = w.st.next_fh := by
  unfold flushF
  dsimp only
  repeat' split
  all_goals rfl

theorem releaseF_next_fh (cfg : Config) (w : World) (ino fh : Nat)
    (o : RelOracle) : (releaseF cfg w ino fh o).2.st.next_fh = w.st.next_fh := by
  unfold releaseF
  dsimp only
  repeat' split
  all_goals rfl

theorem readF_world (w : World) (fh off size : Nat) (o : RdOracle)
    (r : Reply) (w2 : World) (h : readF w fh off size o = some (r, w2)) :
    w2 = w := by
  unfold readF at h
  dsimp only at h
  repeat' split at h
  all_goals simp_all

/-- A successful open reply carries exactly the pre-state's next_fh and
bumps the counter by one; every other outcome leaves the counter alone. -/
theorem openFile_next (cfg : Config) (w : World) (ino flags : Nat)
    (o : OpenOracle) (r : Reply) (w2 : World)
    (h : openFile cfg w ino flags o = some (r, w2)) :
    (∃ fl, r = .opened w.st.next_fh fl ∧ w2.st.next_fh = w.st.next_fh + 1) ∨
    ((∀ fh2 fl, r ≠ .opened fh2 fl) ∧ w2.st.next_fh = w.st.next_fh) := by
  unfold openFile at h
  dsimp only at h
  repeat' split at h
  all_goals cases h
  all_goals
    first
    | (left; exact ⟨_, rfl, rfl⟩)
    | (right; exact ⟨fun fh2 fl hc => Reply.noConfusion hc, rfl⟩)

/-- The consecutive handle identifiers s, s+1, ..., s+n-1. -/
def seqFrom (s : Nat) : Nat → List Nat
  | 0 => []
  | n + 1 => s :: seqFrom (s + 1) n

theorem seqFrom_le (s n : Nat) : ∀ x ∈ seqFrom s n, s ≤ x := by
  induction n generalizing s with
  | zero => intro x hx; cases hx
  | succ n ih =>
    intro x hx
    rcases List.mem_cons.mp hx with rfl | hx
    · exact Nat.le_refl x
    · exact Nat.le_of_succ_le (ih (s + 1) x hx)

theorem seqFrom_pairwise (s n : Nat) : (seqFrom s n).Pairwise (· < ·) := by
  induction n generalizing s with
  | zero => exact List.Pairwise.nil
  | succ n ih =>
    refine List.Pairwise.cons ?_ (ih (s + 1))
    intro x hx
    exact Nat.lt_of_succ_le (seqFrom_le (s + 1) n x hx)

/-- Core invariant: over any trace, the handles issued by successful opens
are exactly the consecutive identifiers starting at the pre-state's
next_fh counter. -/
theorem run_issued (cfg : Config) (ops : List Op) : ∀ (w : World),
    (run cfg w ops).2 = seqFrom w.st.next_fh (run cfg w ops).2.length := by
  induction ops with
  | nil => intro w; rfl
  | cons op rest ih =>
    intro w
    cases op with
    | doOpen ino flags o =>
      cases ho : openFile cfg w ino flags o with
      | none => simp [run, step, ho, seqFrom]
      | some rw2 =>
        obtain ⟨r, w2⟩ := rw2
        rcases openFile_next cfg w ino flags o r w2 ho with
          ⟨fl, hr, hn⟩ | ⟨hno, hn⟩
        · subst hr
          simp only [run, step, ho, Option.toList_some, List.cons_append,
            List.nil_append, List.length_cons, seqFrom]
          have := ih w2
          rw [hn] at this
          exact congrArg (w.st.next_fh :: ·) this
        · have hstep : step cfg w (.doOpen ino flags o) = .next w2 none := by
            cases r with
            | opened fh2 fl => exact absurd rfl (hno fh2 fl)
            | written n => simp [step, ho]
            | dataR bs => simp [step, ho]
            | okR => simp [step, ho]
            | errR e => simp [step, ho]
          simp only [run, hstep, Option.toList_none, List.nil_append]
          rw [← hn]
          exact ih w2
    | doWrite fh off data o =>
      simp only [run, step, Option.toList_none, List.nil_append]
      rw [← writeF_next_fh w fh off data o]
      exact ih _
    | doRead fh off size o =>
      cases hr : readF w fh off size o with
      | none => simp [run, step, hr, seqFrom]
      | some rw2 =>
        obtain ⟨r, w2⟩ := rw2
        have hw : w2 = w := readF_world w fh off size o r w2 hr
        subst hw
        simp only [run, step, hr, Option.toList_none, List.nil_append]
        exact ih _
    | doFlush fh o =>
      simp only [run, step, Option.toList_none, List.nil_append]
      rw [← flushF_next_fh cfg w fh o]
      exact ih _
    | doRelease ino fh o =>
      simp only [run, step, Option.toList_none, List.nil_append]
      rw [← releaseF_next_fh cfg w ino fh o]
      exact ih _

/-- Claim C6: over the whole process lifetime (any trace of callbacks from
the freshly mounted state, whose handle counter starts at 1), the handle
identifiers issued by open are exactly 1, 2, 3, ... in order: strictly
increasing, starting from 1, and never repeated even after a handle is
released. -/
theorem c6_handles_strictly_increasing (cfg : Config)
    (disk remote : List (String × List Nat)) (ops : List Op) :
    (run cfg (freshWorld disk remote) ops).2 =
      seqFrom 1 (run cfg (freshWorld disk remote) ops).2.length ∧
    (run cfg (freshWorld disk remote) ops).2.Pairwise (· < ·) := by
  have h := run_issued cfg ops (freshWorld disk remote)
  constructor
  · exact h
  · rw [h]
    exact seqFrom_pairwise _ _

end TULFS
